import Mathlib

/-!
Verification of the micromagnetic standard-problem-3 notebook.

The notebook assembles a cube geometry, initialises a magnetisation field
(flower or vortex state), relaxes it with an external engine, and runs a
bisection over the cube edge length `L` to find where the two relaxed
energies cross.  The pure parts of the notebook (the initialiser
`m_init_flower`, the function `energy_difference`, the derived material
constants of `minimise_system_energy`) are embedded below over exact
rationals and reals; the external collaborators (scipy's `bisect`,
`discretisedfield`'s `df.Field` construction) are modelled from the spec
where the claims need them.
-/

namespace StdProb3

/-- A three-component vector with rational components. -/
abbrev Vec3 := ℚ × ℚ × ℚ

/-- Squared Euclidean norm of a rational 3-vector. -/
def normSq (v : Vec3) : ℚ := v.1 ^ 2 + v.2.1 ^ 2 + v.2.2 ^ 2

/-- The length scale 1e-9 (metres per nanometre): the notebook's
initialisers divide each position component by `1e-9`. -/
def nm : ℚ := 1 / 10 ^ 9

/-- The flower-state initialiser of the notebook: positions (in metres)
are rescaled to nanometres, the raw vector is `(0, -2*z + 1, 2*y - 1)`,
and if its squared norm is at most 0.05 the hardcoded fallback `(1, 0, 0)`
is returned instead.  (The `x` coordinate is computed but unused in the
Python source.) -/
def m_init_flower (pos : Vec3) : Vec3 :=
  let y := pos.2.1 / nm
  let z := pos.2.2 / nm
  let mx : ℚ := 0
  let my := -2 * z + 1
  let mz := 2 * y - 1
  let norm_squared := mx ^ 2 + my ^ 2 + mz ^ 2
  if norm_squared ≤ 1 / 20 then (1, 0, 0) else (mx, my, mz)

/-- The raw (pre-fallback) flower vector `(0, -2*z + 1, 2*y - 1)` at a
position given in metres. -/
def flower_raw (pos : Vec3) : Vec3 :=
  (0, -2 * (pos.2.2 / nm) + 1, 2 * (pos.2.1 / nm) - 1)

/-- Modelled from the spec: the flower initialiser with the near-zero
threshold and the fallback direction exposed as configurable parameters,
as sections 4.2 and 9 of the spec require of the initialisation. -/
def m_init_flower_conf (threshold : ℚ) (fallback : Vec3) (pos : Vec3) : Vec3 :=
  let y := pos.2.1 / nm
  let z := pos.2.2 / nm
  let mx : ℚ := 0
  let my := -2 * z + 1
  let mz := 2 * y - 1
  if mx ^ 2 + my ^ 2 + mz ^ 2 ≤ threshold then fallback else (mx, my, mz)

/-- The two initial magnetisation configurations the search compares. -/
inductive InitKind
  | flower
  | vortex
deriving DecidableEq

/-- `energy_difference` from the notebook, abstracted over the external
minimiser: `E k L` stands for the total energy of the relaxed system at
edge length `L` started from initialiser `k` (the relaxation itself is
performed by the external OOMMF engine).  The notebook computes
`vortex.total_energy() - flower.total_energy()`. -/
def energy_difference (E : InitKind → ℚ → ℚ) (L : ℚ) : ℚ :=
  E .vortex L - E .flower L

/-- The energy-difference function the spec's section 4.6 describes in
words: `d(L) = E(flower) - E(vortex)`.  Kept only to compare against the
notebook's `energy_difference`. -/
def energy_difference_spec (E : InitKind → ℚ → ℚ) (L : ℚ) : ℚ :=
  E .flower L - E .vortex L

/-- Modelled from the spec: the bisection loop of CriticalLengthSearch
(the notebook delegates to the external `scipy.optimize.bisect`).  While
the bracket width is at least the tolerance, the function is evaluated at
the midpoint and the bracket is narrowed to the half retaining a sign
change; once the width is below the tolerance the midpoint is returned.
`fuel` bounds the number of iterations. -/
def bisect (d : ℚ → ℚ) (tol : ℚ) : Nat → ℚ → ℚ → ℚ
  | 0, lo, hi => (lo + hi) / 2
  | fuel + 1, lo, hi =>
    if hi - lo < tol then (lo + hi) / 2
    else
      let mid := (lo + hi) / 2
      if d lo * d mid ≤ 0 then bisect d tol fuel lo mid
      else bisect d tol fuel mid hi

/-- Failure of the critical-length search. -/
inductive SearchError
  | NoBracket (dlo dhi : ℚ)
deriving DecidableEq

/-- Modelled from the spec: `find_critical_length` (section 4.6 and 6):
requires the energy difference to change sign over `[lo, hi]`, failing
with `NoBracket` carrying both endpoint energy differences otherwise, and
bisects the bracket down to the tolerance. -/
def find_critical_length (lo hi tol : ℚ) (E : InitKind → ℚ → ℚ) (fuel : Nat) :
    Except SearchError ℚ :=
  if energy_difference E lo * energy_difference E hi < 0 then
    .ok (bisect (energy_difference E) tol fuel lo hi)
  else
    .error (.NoBracket (energy_difference E lo) (energy_difference E hi))

/-- A three-component vector with real components, for the normalisation
invariant of the field construction. -/
abbrev RVec3 := ℝ × ℝ × ℝ

/-- Squared Euclidean norm of a real 3-vector. -/
noncomputable def rnormSq (v : RVec3) : ℝ := v.1 ^ 2 + v.2.1 ^ 2 + v.2.2 ^ 2

/-- Euclidean norm of a real 3-vector. -/
noncomputable def rnorm (v : RVec3) : ℝ := Real.sqrt (rnormSq v)

/-- Scalar multiple of a real 3-vector. -/
noncomputable def smul3 (c : ℝ) (v : RVec3) : RVec3 := (c * v.1, c * v.2.1, c * v.2.2)

/-- Modelled from the spec: the per-cell value stored by the VectorField
construction `df.Field(mesh, value=init, norm=Ms)` (the `discretisedfield`
library is external).  Section 4.2: each returned vector is normalised to
unit length and scaled by `Ms`; a vector whose squared norm is at most the
near-zero threshold fails over to the configurable fallback direction. -/
noncomputable def field_value (init : RVec3 → RVec3) (threshold : ℝ)
    (fallback : RVec3) (M : ℝ) (pos : RVec3) : RVec3 :=
  let v := init pos
  let w := if rnormSq v ≤ threshold then fallback else v
  smul3 (M / rnorm w) w

/-- The vacuum permeability `oc.mu0 = 4 * pi * 1e-7` used by the notebook
through the oommfc library. -/
noncomputable def mu0 : ℝ := 4 * Real.pi / 10 ^ 7

/-- `cubesize = 100e-9`, the physical cube edge length (metres), from
`minimise_system_energy`. -/
noncomputable def cubesize : ℝ := 100 / 10 ^ 9

/-- `lex = cubesize / L`, the exchange length, from
`minimise_system_energy`. -/
noncomputable def lex (L : ℝ) : ℝ := cubesize / L

/-- `Km = 1e6`, the magnetostatic energy density, from
`minimise_system_energy`. -/
noncomputable def Km : ℝ := 10 ^ 6

/-- `Ms = sqrt(2 * Km / mu0)`, the saturation magnetisation, from
`minimise_system_energy`. -/
noncomputable def Ms : ℝ := Real.sqrt (2 * Km / mu0)

/-- `A = 0.5 * mu0 * Ms^2 * lex^2`, the exchange energy constant, from
`minimise_system_energy`. -/
noncomputable def A (L : ℝ) : ℝ := (1 / 2) * mu0 * Ms ^ 2 * lex L ^ 2

/-- `K = 0.1 * Km`, the uniaxial anisotropy constant, from
`minimise_system_energy`. -/
noncomputable def K : ℝ := (1 / 10) * Km

/-- Unfolding of `m_init_flower` through `flower_raw`. -/
theorem m_init_flower_def (pos : Vec3) :
    m_init_flower pos =
      if normSq (flower_raw pos) ≤ 1 / 20 then (1, 0, 0) else flower_raw pos := rfl

/-- C1 counterexample: for the energy function giving the flower state
total energy 1 and the vortex state total energy 0 at every length, the
notebook's `energy_difference` at `L = 8` is `-1`, not the spec's
`E(flower) - E(vortex) = 1`. -/
theorem energy_difference_sign_cex :
    energy_difference
        (fun k _ => match k with | .flower => 1 | .vortex => 0) 8 ≠
      energy_difference_spec
        (fun k _ => match k with | .flower => 1 | .vortex => 0) 8 := by
  norm_num [energy_difference, energy_difference_spec]

/-- C1 (amended): the energy-difference function evaluated by the
critical-length search satisfies, for every (abstract) minimised energy
`E` and every edge length `L`,
`d(L) = E(vortex state at L) - E(flower state at L)`. -/
theorem energy_difference_eq (E : InitKind → ℚ → ℚ) (L : ℚ) :
    energy_difference E L = E .vortex L - E .flower L := rfl

/-- C2: positions whose raw flower vector has squared norm at most 0.05
get the fallback direction `(1, 0, 0)`; all other positions get the raw
vector `(0, -2*z + 1, 2*y - 1)`; and the returned vector never has zero
norm. -/
theorem m_init_flower_fallback (pos : Vec3) :
    (normSq (flower_raw pos) ≤ 1 / 20 → m_init_flower pos = (1, 0, 0)) ∧
    (¬ normSq (flower_raw pos) ≤ 1 / 20 → m_init_flower pos = flower_raw pos) ∧
    normSq (m_init_flower pos) ≠ 0 := by
  rw [m_init_flower_def]
  by_cases h : normSq (flower_raw pos) ≤ 1 / 20
  · rw [if_pos h]
    refine ⟨fun _ => rfl, fun h2 => absurd h h2, ?_⟩
    norm_num [normSq]
  · rw [if_neg h]
    refine ⟨fun h2 => absurd h2 h, fun _ => rfl, ?_⟩
    intro h0
    exact h (by rw [h0]; norm_num)

/-- C8 counterexample: at the degenerate position (x any, y = z = 0.5 nm)
the raw flower vector is zero, and the notebook's initialiser returns the
hardcoded fallback `(1, 0, 0)`; an initialiser with the fallback actually
configured to `(0, 1, 0)` returns `(0, 1, 0)` there, so the fallback used
by the code is the fixed x axis, not a configurable parameter. -/
theorem m_init_flower_hardcoded_cex :
    m_init_flower (0, 1 / 2000000000, 1 / 2000000000) = (1, 0, 0) ∧
    m_init_flower_conf (1 / 20) (0, 1, 0) (0, 1 / 2000000000, 1 / 2000000000) =
      (0, 1, 0) ∧
    m_init_flower_conf (1 / 20) (0, 1, 0) (0, 1 / 2000000000, 1 / 2000000000) ≠
      m_init_flower (0, 1 / 2000000000, 1 / 2000000000) := by
  refine ⟨?_, ?_, ?_⟩ <;> norm_num [m_init_flower, m_init_flower_conf, nm]

/-- C8 (amended): in the code the near-zero threshold and the fallback
direction are hardcoded constants of `m_init_flower` (0.05 and the x axis
`(1, 0, 0)`): at every position the notebook's initialiser coincides with
the spec's configurable initialiser instantiated at exactly that threshold
and fallback. -/
theorem m_init_flower_eq_conf (pos : Vec3) :
    m_init_flower pos = m_init_flower_conf (1 / 20) (1, 0, 0) pos := rfl

/-- C10: the flower-state initialiser never reads the x coordinate: two
positions agreeing on y and z get the same vector. -/
theorem m_init_flower_x_independent (p q : Vec3) (hy : p.2.1 = q.2.1)
    (hz : p.2.2 = q.2.2) : m_init_flower p = m_init_flower q := by
  simp only [m_init_flower, hy, hz]

/-- C10 witness: the positions `(0, 0, 0)` and `(5, 0, 0)` differ only in
x and receive the same initial vector. -/
theorem m_init_flower_x_independent_witness :
    ((0 : ℚ), (0 : ℚ), (0 : ℚ)).2.1 = ((5 : ℚ), (0 : ℚ), (0 : ℚ)).2.1 ∧
    ((0 : ℚ), (0 : ℚ), (0 : ℚ)).2.2 = ((5 : ℚ), (0 : ℚ), (0 : ℚ)).2.2 ∧
    m_init_flower (0, 0, 0) = m_init_flower (5, 0, 0) :=
  ⟨rfl, rfl, m_init_flower_x_independent (0, 0, 0) (5, 0, 0) rfl rfl⟩

/-- The bisection result always lies strictly between the bracket
endpoints. -/
theorem bisect_mem (d : ℚ → ℚ) (tol : ℚ) :
    ∀ (fuel : Nat) (lo hi : ℚ), lo < hi →
      lo < bisect d tol fuel lo hi ∧ bisect d tol fuel lo hi < hi := by
  intro fuel
  induction fuel with
  | zero =>
    intro lo hi h
    simp only [bisect]
    constructor <;> linarith
  | succ n ih =>
    intro lo hi h
    simp only [bisect]
    by_cases hw : hi - lo < tol
    · rw [if_pos hw]
      constructor <;> linarith
    · rw [if_neg hw]
      have hm1 : lo < (lo + hi) / 2 := by linarith
      have hm2 : (lo + hi) / 2 < hi := by linarith
      by_cases hc : d lo * d ((lo + hi) / 2) ≤ 0
      · rw [if_pos hc]
        have := ih lo ((lo + hi) / 2) hm1
        exact ⟨this.1, lt_trans this.2 hm2⟩
      · rw [if_neg hc]
        have := ih ((lo + hi) / 2) hi hm2
        exact ⟨lt_trans hm1 this.1, this.2⟩

/-- C3: called on the bracket `[8, 9]` with tolerance 0.05 and an energy
function whose difference changes sign over the bracket, the
critical-length search returns a crossing estimate strictly inside
`(8, 9)`, whatever the iteration budget. -/
theorem find_critical_length_inside (E : InitKind → ℚ → ℚ) (fuel : Nat)
    (h : energy_difference E 8 * energy_difference E 9 < 0) :
    ∃ r, find_critical_length 8 9 (1 / 20) E fuel = .ok r ∧ 8 < r ∧ r < 9 := by
  refine ⟨bisect (energy_difference E) (1 / 20) fuel 8 9, ?_, ?_, ?_⟩
  · unfold find_critical_length
    rw [if_pos h]
  · exact (bisect_mem (energy_difference E) (1 / 20) fuel 8 9 (by norm_num)).1
  · exact (bisect_mem (energy_difference E) (1 / 20) fuel 8 9 (by norm_num)).2

/-- C3 witness: for the energy function whose difference is `L - 17/2`,
the bracket `[8, 9]` has a sign change and the search returns an estimate
strictly inside `(8, 9)`. -/
theorem find_critical_length_inside_witness :
    energy_difference
        (fun k L => match k with | .flower => 0 | .vortex => L - 17 / 2) 8 *
      energy_difference
        (fun k L => match k with | .flower => 0 | .vortex => L - 17 / 2) 9 < 0 ∧
    ∃ r, find_critical_length 8 9 (1 / 20)
        (fun k L => match k with | .flower => 0 | .vortex => L - 17 / 2) 5 =
      .ok r ∧ 8 < r ∧ r < 9 :=
  ⟨by norm_num [energy_difference],
   find_critical_length_inside _ 5 (by norm_num [energy_difference])⟩

/-- C4: when the energy difference has the same (strict) sign at both
endpoints, the critical-length search fails with `NoBracket` carrying both
endpoint energy differences, whatever the tolerance and iteration
budget. -/
theorem find_critical_length_nobracket (E : InitKind → ℚ → ℚ)
    (lo hi tol : ℚ) (fuel : Nat)
    (h : 0 < energy_difference E lo * energy_difference E hi) :
    find_critical_length lo hi tol E fuel =
      .error (.NoBracket (energy_difference E lo) (energy_difference E hi)) := by
  unfold find_critical_length
  rw [if_neg (not_lt.mpr (le_of_lt h))]

/-- C4 witness: an energy function whose difference is 2 everywhere gives
same-sign endpoints and the search reports `NoBracket (2, 2)`. -/
theorem find_critical_length_nobracket_witness :
    0 < energy_difference
          (fun k _ => match k with | .flower => 1 | .vortex => 3) 8 *
        energy_difference
          (fun k _ => match k with | .flower => 1 | .vortex => 3) 9 ∧
    find_critical_length 8 9 (1 / 20)
        (fun k _ => match k with | .flower => 1 | .vortex => 3) 5 =
      .error (.NoBracket
        (energy_difference
          (fun k _ => match k with | .flower => 1 | .vortex => 3) 8)
        (energy_difference
          (fun k _ => match k with | .flower => 1 | .vortex => 3) 9)) :=
  ⟨by norm_num [energy_difference],
   find_critical_length_nobracket _ 8 9 (1 / 20) 5
     (by norm_num [energy_difference])⟩

/-- C5: one step of the bisection on a bracket where `d` changes sign
(weakly): if the bracket width is below the tolerance the loop stops and
returns the midpoint; otherwise `d` is evaluated at the midpoint and the
loop recurses into the half that retains the sign change (so, by
induction, every intermediate bracket retains a sign change). -/
theorem bisect_step (d : ℚ → ℚ) (tol lo hi : ℚ) (fuel : Nat)
    (hb : d lo * d hi ≤ 0) :
    (hi - lo < tol → bisect d tol (fuel + 1) lo hi = (lo + hi) / 2) ∧
    (¬ hi - lo < tol →
      ((d lo * d ((lo + hi) / 2) ≤ 0 ∧
          bisect d tol (fuel + 1) lo hi = bisect d tol fuel lo ((lo + hi) / 2)) ∨
        (¬ d lo * d ((lo + hi) / 2) ≤ 0 ∧ d ((lo + hi) / 2) * d hi ≤ 0 ∧
          bisect d tol (fuel + 1) lo hi =
            bisect d tol fuel ((lo + hi) / 2) hi))) := by
  constructor
  · intro h
    simp only [bisect]
    rw [if_pos h]
  · intro h
    simp only [bisect]
    rw [if_neg h]
    by_cases hc : d lo * d ((lo + hi) / 2) ≤ 0
    · exact Or.inl ⟨hc, by rw [if_pos hc]⟩
    · refine Or.inr ⟨hc, ?_, by rw [if_neg hc]⟩
      have hlo : d lo ≠ 0 := fun h0 => hc (by rw [h0, zero_mul])
      push_neg at hc
      by_contra h3
      push_neg at h3
      nlinarith [mul_pos hc h3, sq_nonneg (d ((lo + hi) / 2)), hb]

/-- C5 witness: the step characterisation at the concrete bracket
`[0, 2]` with `d L = L - 1`, tolerance 1 and fuel 3. -/
theorem bisect_step_witness :
    ((0 : ℚ) - 1) * ((2 : ℚ) - 1) ≤ 0 ∧
    (((2 : ℚ) - 0 < 1 →
        bisect (fun L => L - 1) 1 (3 + 1) 0 2 = (0 + 2) / 2) ∧
      (¬ (2 : ℚ) - 0 < 1 →
        ((((0 : ℚ) - 1) * ((0 + 2) / 2 - 1) ≤ 0 ∧
            bisect (fun L => L - 1) 1 (3 + 1) 0 2 =
              bisect (fun L => L - 1) 1 3 0 ((0 + 2) / 2)) ∨
          (¬ ((0 : ℚ) - 1) * ((0 + 2) / 2 - 1) ≤ 0 ∧
            (((0 : ℚ) + 2) / 2 - 1) * ((2 : ℚ) - 1) ≤ 0 ∧
            bisect (fun L => L - 1) 1 (3 + 1) 0 2 =
              bisect (fun L => L - 1) 1 3 ((0 + 2) / 2) 2)))) :=
  by exact ⟨by norm_num, bisect_step (fun L => L - 1) 1 0 2 3 (by norm_num)⟩

/-- A real 3-vector other than the origin has positive squared norm. -/
theorem rnormSq_pos (v : RVec3) (hv : v ≠ (0, 0, 0)) : 0 < rnormSq v := by
  rcases v with ⟨a, b, c⟩
  by_contra h
  push_neg at h
  simp only [rnormSq] at h
  have ha : a ^ 2 = 0 :=
    le_antisymm (by nlinarith [sq_nonneg b, sq_nonneg c]) (sq_nonneg a)
  have hb : b ^ 2 = 0 :=
    le_antisymm (by nlinarith [sq_nonneg a, sq_nonneg c]) (sq_nonneg b)
  have hc : c ^ 2 = 0 :=
    le_antisymm (by nlinarith [sq_nonneg a, sq_nonneg b]) (sq_nonneg c)
  rw [sq_eq_zero_iff] at ha hb hc
  exact hv (by simp [ha, hb, hc])

/-- Scaling a vector scales its norm by the absolute scale factor. -/
theorem rnorm_smul3 (c : ℝ) (v : RVec3) : rnorm (smul3 c v) = |c| * rnorm v := by
  rcases v with ⟨a, b, e⟩
  simp only [rnorm, rnormSq, smul3]
  have h : (c * a) ^ 2 + (c * b) ^ 2 + (c * e) ^ 2 =
      c ^ 2 * (a ^ 2 + b ^ 2 + e ^ 2) := by ring
  rw [h, Real.sqrt_mul (sq_nonneg c), Real.sqrt_sq_eq_abs]

/-- C6: for every cell position, the vector stored by the VectorField
construction has Euclidean norm equal to the saturation magnitude to
within 1e-9 relative tolerance (in the exact model the norm is exactly the
saturation magnitude). -/
theorem field_value_norm (init : RVec3 → RVec3) (threshold : ℝ)
    (fallback : RVec3) (M : ℝ) (pos : RVec3)
    (hf : fallback ≠ (0, 0, 0)) (ht : 0 ≤ threshold) (hM : 0 ≤ M) :
    |rnorm (field_value init threshold fallback M pos) - M| ≤ 1 / 10 ^ 9 * M := by
  have hw : (if rnormSq (init pos) ≤ threshold then fallback else init pos) ≠
      (0, 0, 0) := by
    split_ifs with h
    · exact hf
    · intro h0
      exact h (by rw [h0]; simpa [rnormSq] using ht)
  set w := if rnormSq (init pos) ≤ threshold then fallback else init pos with hwdef
  have hpos : 0 < rnormSq w := rnormSq_pos w hw
  have hn : 0 < rnorm w := Real.sqrt_pos.mpr hpos
  have hcalc : rnorm (field_value init threshold fallback M pos) = M := by
    show rnorm (smul3 (M / rnorm w) w) = M
    rw [rnorm_smul3, abs_of_nonneg (div_nonneg hM hn.le)]
    field_simp
  rw [hcalc, sub_self, abs_zero]
  exact mul_nonneg (by norm_num) hM

/-- C6 witness: the stored vector at the origin, for a constant
initialiser, threshold 0, fallback `(1, 0, 0)` and saturation magnitude 1,
has norm within 1e-9 of 1. -/
theorem field_value_norm_witness :
    (((1 : ℝ), (0 : ℝ), (0 : ℝ)) ≠ ((0 : ℝ), (0 : ℝ), (0 : ℝ))) ∧
    (0 : ℝ) ≤ 0 ∧ (0 : ℝ) ≤ 1 ∧
    |rnorm (field_value (fun _ => ((2 : ℝ), (0 : ℝ), (0 : ℝ))) 0
        ((1 : ℝ), (0 : ℝ), (0 : ℝ)) 1 ((0 : ℝ), (0 : ℝ), (0 : ℝ))) - 1| ≤
      1 / 10 ^ 9 * 1 :=
  ⟨by norm_num [Prod.ext_iff], le_refl 0, by norm_num,
   field_value_norm _ 0 _ 1 _ (by norm_num [Prod.ext_iff]) le_rfl (by norm_num)⟩

/-- C9: for every positive edge length `L`, the constants derived in
`minimise_system_energy` satisfy `(1/2) * mu0 * Ms^2 = Km` exactly,
`sqrt(A / Km) = cubesize / L` (so the physical cube edge equals exactly
`L` exchange lengths), and the anisotropy constant is `0.1 * Km`. -/
theorem material_constants (L : ℝ) (hL : 0 < L) :
    1 / 2 * mu0 * Ms ^ 2 = Km ∧
    Real.sqrt (A L / Km) = cubesize / L ∧
    cubesize = L * Real.sqrt (A L / Km) ∧
    K = 1 / 10 * Km := by
  have hpi := Real.pi_pos
  have hmu : 0 < mu0 := by unfold mu0; positivity
  have hKm : (0 : ℝ) < Km := by unfold Km; norm_num
  have hMs2 : Ms ^ 2 = 2 * Km / mu0 := Real.sq_sqrt (by positivity)
  have h1 : 1 / 2 * mu0 * Ms ^ 2 = Km := by
    rw [hMs2]
    field_simp
    ring
  have hcs : (0 : ℝ) < cubesize := by unfold cubesize; norm_num
  have hlex : 0 < lex L := div_pos hcs hL
  have hA : A L = Km * lex L ^ 2 := by
    unfold A
    rw [h1]
  have h2 : Real.sqrt (A L / Km) = cubesize / L := by
    rw [hA, mul_div_cancel_left₀ _ hKm.ne', Real.sqrt_sq hlex.le]
    rfl
  refine ⟨h1, h2, ?_, rfl⟩
  rw [h2]
  symm
  rw [mul_comm]
  exact div_mul_cancel₀ cubesize hL.ne'

/-- C9 witness: the constant relations at edge length `L = 2`. -/
theorem material_constants_witness :
    (0 : ℝ) < 2 ∧
    (1 / 2 * mu0 * Ms ^ 2 = Km ∧
      Real.sqrt (A 2 / Km) = cubesize / 2 ∧
      cubesize = 2 * Real.sqrt (A 2 / Km) ∧
      K = 1 / 10 * Km) :=
  ⟨by norm_num, material_constants 2 (by norm_num)⟩

end StdProb3
